import Mathlib

/-!
Verification of the udp-vote server core.

The repository holds two near-duplicate server implementations:
  - src/unnamed/part_005 (a complete variant of the server package),
    embedded in namespace UDPVote below, and
  - src/internal/server/server_udp.go, embedded in namespace ServerUdpGo.

Go maps keyed by strings are embedded as association lists whose access
functions mirror Go map semantics: lookupKey returns the first binding,
setKey overwrites in place or appends, bumpKey models the statement
m[k]++ (increment the existing entry, or insert 1 when the key is absent).
Network I/O (UDP sends, log lines) has no effect on the server state and
is therefore not part of the state; replies are returned as result values.
Wall-clock instants are Nat; time.Now().After(d) at instant now is d < now.
-/

namespace UDPVote

/-- First-match lookup in an association list, mirroring Go map read m[k]. -/
def lookupKey {α : Type} : List (String × α) → String → Option α
  | [], _ => none
  | (k, v) :: t, key => if k = key then some v else lookupKey t key

/-- Go map write m[k] = v: overwrite the first binding of k, else append. -/
def setKey {α : Type} : List (String × α) → String → α → List (String × α)
  | [], key, v => [(key, v)]
  | (k, w) :: t, key, v =>
      if k = key then (k, v) :: t else (k, w) :: setKey t key v

/-- Go statement m[k]++ : increment the binding of k, inserting 1 if absent. -/
def bumpKey (m : List (String × Nat)) (key : String) : List (String × Nat) :=
  setKey m key ((lookupKey m key).getD 0 + 1)

/-- Sum of all counters of a tally map. -/
def sumCounts (m : List (String × Nat)) : Nat :=
  (m.map Prod.snd).sum

/-- VotingState from types.go / part_006. -/
inductive VotingState
  | votingNotStarted
  | votingActive
  | votingEnded
deriving DecidableEq, Repr

/-- BroadcastUpdate from types.go: snapshot of the tally plus a sequence number. -/
structure BroadcastUpdate where
  voteCounts : List (String × Nat)
  seqNum : Nat
deriving DecidableEq, Repr

/-- The state of the part_005 UDPServer: clients, votes, voteCounts maps,
voting phase and deadline, broadcast sequence counter and the buffered
broadcast channel (modelled as the list of queued updates). Client
endpoints are opaque and modelled as Nat. -/
structure UDPServer where
  clients : List (String × Nat)
  votes : List (String × String)
  voteCounts : List (String × Nat)
  votingState : VotingState
  votingDeadline : Nat
  broadcastSeq : Nat
  broadcastChan : List BroadcastUpdate
deriving DecidableEq, Repr

/-- Capacity of the broadcast channel in part_005 (make(chan ..., 200)). -/
def chanCapacity : Nat := 200

/-- NewUDPServer from part_005: empty maps, one zero counter per option,
state VotingNotStarted, sequence counter 0, empty channel. -/
def NewUDPServer (options : List String) : UDPServer :=
  { clients := []
    votes := []
    voteCounts := options.foldl (fun m op => setKey m op 0) []
    votingState := .votingNotStarted
    votingDeadline := 0
    broadcastSeq := 0
    broadcastChan := [] }

/-- broadcastUpdateLocked from part_005: increment the sequence counter,
snapshot the tally, and enqueue the update unless the channel is full
(select with default: the update is dropped, the counter stays advanced). -/
def broadcastUpdateLocked (s : UDPServer) : UDPServer :=
  let s1 := { s with broadcastSeq := s.broadcastSeq + 1 }
  if s1.broadcastChan.length < chanCapacity then
    { s1 with broadcastChan :=
        s1.broadcastChan ++ [⟨s1.voteCounts, s1.broadcastSeq⟩] }
  else s1

/-- Result of processVote, mirroring the ERROR/ACK replies of part_005. -/
inductive VoteResult
  | notRegistered
  | votingNotActive
  | duplicateVote
  | invalidOption
  | accepted
deriving DecidableEq, Repr

/-- processVote from part_005, checks in source order: registration,
active phase and deadline (time.Now().After(votingDeadline) is
votingDeadline < now), duplicate ballot, option validity against the
voteCounts keys; on success record the ballot, increment the tally and
broadcast. -/
def processVote (s : UDPServer) (id option : String) (now : Nat) :
    VoteResult × UDPServer :=
  if lookupKey s.clients id = none then
    (.notRegistered, s)
  else if s.votingState ≠ .votingActive ∨ s.votingDeadline < now then
    (.votingNotActive, s)
  else if lookupKey s.votes id ≠ none then
    (.duplicateVote, s)
  else if lookupKey s.voteCounts option = none then
    (.invalidOption, s)
  else
    (.accepted, broadcastUpdateLocked
      { s with votes := setKey s.votes id option
               voteCounts := bumpKey s.voteCounts option })

/-- Result of registerClient. -/
inductive RegisterResult
  | alreadyRegistered
  | ok
deriving DecidableEq, Repr

/-- registerClient from part_005: reject an identifier that already has a
record (no update of the stored endpoint), otherwise store the endpoint.
The status reply depends on the phase but does not change the state. -/
def registerClient (s : UDPServer) (id : String) (addr : Nat) :
    RegisterResult × UDPServer :=
  if lookupKey s.clients id ≠ none then
    (.alreadyRegistered, s)
  else
    (.ok, { s with clients := setKey s.clients id addr })

/-- StartVoting from part_005: a no-op unless the state is
VotingNotStarted; otherwise set the state to VotingActive, set the
deadline to now plus the duration, and broadcast the start event.
(The scheduled time.AfterFunc end callback is modelled as the finish
event of the step relation below.) -/
def StartVoting (s : UDPServer) (sec now : Nat) : UDPServer :=
  if s.votingState ≠ .votingNotStarted then s
  else broadcastUpdateLocked
    { s with votingState := .votingActive, votingDeadline := now + sec }

/-- endVoting from part_005: a no-op unless the state is VotingActive;
otherwise set the state to VotingEnded and broadcast the final result. -/
def endVoting (s : UDPServer) : UDPServer :=
  if s.votingState ≠ .votingActive then s
  else broadcastUpdateLocked { s with votingState := .votingEnded }

/-- sendBroadcast from part_005 sends a dequeued update to the endpoint of
every client in the clients map; this is the list of endpoints written to. -/
def sendBroadcastTargets (s : UDPServer) : List Nat :=
  s.clients.map Prod.snd

/-- The externally triggerable operations of the part_005 server.
register and vote arrive as datagrams, start is called by the driver,
finish is the endVoting transition (scheduled deadline callback or an
external trigger), drain is the broadcast worker dequeuing one update. -/
inductive Event
  | register (id : String) (addr : Nat)
  | vote (id option : String) (now : Nat)
  | start (sec now : Nat)
  | finish
  | drain

/-- One step of the server under an event. -/
def applyEvent (s : UDPServer) : Event → UDPServer
  | .register id addr => (registerClient s id addr).2
  | .vote id option now => (processVote s id option now).2
  | .start sec now => StartVoting s sec now
  | .finish => endVoting s
  | .drain => { s with broadcastChan := s.broadcastChan.tail }

/-- The state reached from a freshly constructed server by a list of events. -/
def runEvents (options : List String) (es : List Event) : UDPServer :=
  es.foldl applyEvent (NewUDPServer options)

end UDPVote

namespace ServerUdpGo

/-!
Embedding of the variant in src/internal/server/server_udp.go. It differs
from part_005 in three ways that matter to the claims: handleVote counts
every received vote (votesReceived) before any check, option validity is
tested against options.List instead of the voteCounts keys, StartVoting
and endVoting send announcements directly without touching broadcastSeq,
and the broadcast worker sends a dequeued update only to the endpoints of
clients that appear in the votes map. Association-list helpers are shared
with namespace UDPVote.
-/

open UDPVote (lookupKey setKey bumpKey VotingState BroadcastUpdate VoteResult RegisterResult)

/-- Go fmt.Sprintf of a string slice, used for VotingOptions.DisplayString. -/
def goFormatList (l : List String) : String :=
  "[" ++ String.intercalate " " l ++ "]"

/-- VotingOptions from types.go. -/
structure VotingOptions where
  list : List String
  displayString : String
deriving DecidableEq, Repr

/-- The state of the server_udp.go UDPServer. Endpoints are opaque Nat. -/
structure UDPServer where
  clients : List (String × Nat)
  votes : List (String × String)
  voteCounts : List (String × Nat)
  options : VotingOptions
  useAsyncBroadcast : Bool
  broadcastChan : List BroadcastUpdate
  votingState : VotingState
  votingDeadline : Nat
  votesReceived : Nat
  broadcastSeq : Nat
deriving DecidableEq, Repr

/-- Capacity of the async broadcast channel (make(chan ..., 1000)). -/
def chanCapacity : Nat := 1000

/-- NewUDPServer from server_udp.go. -/
def NewUDPServer (async : Bool) (optionsList : List String) : UDPServer :=
  { clients := []
    votes := []
    voteCounts := optionsList.foldl (fun m op => setKey m op 0) []
    options := ⟨optionsList, goFormatList optionsList⟩
    useAsyncBroadcast := async
    broadcastChan := []
    votingState := .votingNotStarted
    votingDeadline := 0
    votesReceived := 0
    broadcastSeq := 0 }

/-- handleRegister from server_udp.go: same first-writer-wins logic as
part_005 registerClient. -/
def handleRegister (s : UDPServer) (clientID : String) (addr : Nat) :
    RegisterResult × UDPServer :=
  if lookupKey s.clients clientID ≠ none then
    (.alreadyRegistered, s)
  else
    (.ok, { s with clients := setKey s.clients clientID addr })

/-- broadcastSync from server_udp.go: increments the sequence counter and
sends the live tally with a large padding payload to the endpoints of the
clients that appear in the votes map. The sends are I/O; the state effect
is the counter increment. -/
def broadcastSync (s : UDPServer) : UDPServer :=
  { s with broadcastSeq := s.broadcastSeq + 1 }

/-- broadcastAsync from server_udp.go: increments the sequence counter and
snapshots the tally (lines 236-239). The enqueue statement itself is cut
off in the source file; its modelling as a non-blocking enqueue that drops
on a full channel follows the select/default pattern of the part_005
variant and the spec (section 4.3). -/
def broadcastAsync (s : UDPServer) : UDPServer :=
  let s1 := { s with broadcastSeq := s.broadcastSeq + 1 }
  if s1.broadcastChan.length < chanCapacity then
    { s1 with broadcastChan :=
        s1.broadcastChan ++ [⟨s1.voteCounts, s1.broadcastSeq⟩] }
  else s1

/-- handleVote from server_udp.go: votesReceived is incremented before any
check; then the checks run in the same order as part_005, with option
validity tested by scanning options.List; on success the ballot is
recorded, the tally incremented, and a sync or async broadcast issued. -/
def handleVote (s0 : UDPServer) (clientID option : String) (now : Nat) :
    VoteResult × UDPServer :=
  let s := { s0 with votesReceived := s0.votesReceived + 1 }
  if lookupKey s.clients clientID = none then
    (.notRegistered, s)
  else if s.votingState ≠ .votingActive ∨ s.votingDeadline < now then
    (.votingNotActive, s)
  else if lookupKey s.votes clientID ≠ none then
    (.duplicateVote, s)
  else if option ∉ s.options.list then
    (.invalidOption, s)
  else
    let s1 := { s with votes := setKey s.votes clientID option
                       voteCounts := bumpKey s.voteCounts option }
    (.accepted, if s1.useAsyncBroadcast then broadcastAsync s1 else broadcastSync s1)

/-- The target map built by broadcastWorker in server_udp.go (lines
265-272): for each id in the votes map that is also in the clients map,
the endpoint of that id. Clients that have not voted are not included. -/
def broadcastWorkerTargets (s : UDPServer) : List (String × Nat) :=
  s.votes.foldl
    (fun acc p =>
      match lookupKey s.clients p.1 with
      | some addr => setKey acc p.1 addr
      | none => acc)
    []

/-- StartVoting from server_udp.go (lines 296-321): a no-op unless the
state is VotingNotStarted; otherwise set the state and the deadline and
send an announcement message directly to every client. The announcement
carries no sequence number and broadcastSeq is not incremented. -/
def StartVoting (s : UDPServer) (durationSeconds now : Nat) : UDPServer :=
  if s.votingState ≠ .votingNotStarted then s
  else { s with votingState := .votingActive
                votingDeadline := now + durationSeconds }

/-- endVoting from server_udp.go (lines 324-346): a no-op unless the state
is VotingActive; otherwise set the state to VotingEnded and send the final
result directly to every client, again without touching broadcastSeq. -/
def endVoting (s : UDPServer) : UDPServer :=
  if s.votingState ≠ .votingActive then s
  else { s with votingState := .votingEnded }

end ServerUdpGo

namespace UDPVote

/-- Height of a phase in the NOT_STARTED, ACTIVE, ENDED progression, used
to state monotonicity of the transitions. -/
def phaseRank : VotingState → Nat
  | .votingNotStarted => 0
  | .votingActive => 1
  | .votingEnded => 2

/-- Sample state: alice registered, voting not yet started. -/
def sampleNotStarted : UDPServer :=
  runEvents ["A", "B"] [.register "alice" 0]

/-- Sample state: alice registered, voting started at instant 0 for 5
units, so the deadline is 5. -/
def sampleActive : UDPServer :=
  runEvents ["A", "B"] [.register "alice" 0, .start 5 0]

/-- Sample state: as sampleActive, and alice has voted for option A. -/
def sampleVoted : UDPServer :=
  runEvents ["A", "B"] [.register "alice" 0, .start 5 0, .vote "alice" "A" 1]

/-- Sample state: as sampleActive, then the voting was ended. -/
def sampleEnded : UDPServer :=
  runEvents ["A", "B"] [.register "alice" 0, .start 5 0, .finish]

end UDPVote

namespace ServerUdpGo

/-- Sample server_udp.go state: alice and bob registered, voting active,
alice has voted for A, bob has not voted. -/
def sampleVotedGo : UDPServer :=
  (handleVote
    (StartVoting
      ((handleRegister
        ((handleRegister (NewUDPServer true ["A", "B"]) "alice" 0).2)
        "bob" 1).2)
      5 0)
    "alice" "A" 1).2

end ServerUdpGo

namespace UDPVote

/-- Reading a map after a write: the written key reads back the written
value, every other key is unaffected. -/
theorem lookupKey_setKey {α : Type} (l : List (String × α)) (key k : String) (v : α) :
    lookupKey (setKey l key v) k = if k = key then some v else lookupKey l k := by
  induction l with
  | nil =>
      by_cases h : k = key
      · simp [setKey, lookupKey, h]
      · simp [setKey, lookupKey, h, Ne.symm h]
  | cons p t ih =>
      obtain ⟨k0, w⟩ := p
      by_cases h0 : k0 = key
      · subst h0
        by_cases h : k = k0
        · simp [setKey, lookupKey, h]
        · simp [setKey, lookupKey, h, Ne.symm h]
      · by_cases h : k0 = k
        · subst h
          simp [setKey, lookupKey, h0, ih, Ne.symm h0]
        · simp [setKey, lookupKey, h0, h, ih]

/-- Writing an absent key appends the new binding at the end. -/
theorem setKey_of_lookup_none {α : Type} (l : List (String × α)) (key : String) (v : α)
    (h : lookupKey l key = none) : setKey l key v = l ++ [(key, v)] := by
  induction l with
  | nil => simp [setKey]
  | cons p t ih =>
      obtain ⟨k0, w⟩ := p
      by_cases h0 : k0 = key
      · simp [lookupKey, h0] at h
      · simp [lookupKey, h0] at h
        simp [setKey, h0, ih h]

/-- Every entry of a map after a write is the written binding or an old entry. -/
theorem mem_setKey {α : Type} (l : List (String × α)) (key : String) (v : α)
    (q : String × α) (h : q ∈ setKey l key v) : q = (key, v) ∨ q ∈ l := by
  induction l with
  | nil => simpa [setKey] using h
  | cons p t ih =>
      obtain ⟨k0, w⟩ := p
      by_cases h0 : k0 = key
      · subst h0
        simp [setKey] at h
        rcases h with h | h
        · exact Or.inl (by simp [h])
        · exact Or.inr (by simp [h])
      · simp [setKey, h0] at h
        rcases h with h | h
        · exact Or.inr (by simp [h])
        · rcases ih h with h1 | h1
          · exact Or.inl h1
          · exact Or.inr (by simp [h1])

/-- Overwriting a present key shifts the sum of the counters by the
difference of the new and old value. -/
theorem sumCounts_setKey (m : List (String × Nat)) (key : String) (v w : Nat)
    (h : lookupKey m key = some v) :
    sumCounts (setKey m key w) + v = sumCounts m + w := by
  induction m with
  | nil => simp [lookupKey] at h
  | cons p t ih =>
      obtain ⟨k0, u⟩ := p
      by_cases h0 : k0 = key
      · subst h0
        simp [lookupKey] at h
        subst h
        simp [setKey, sumCounts]
        omega
      · simp [lookupKey, h0] at h
        have := ih h
        simp [setKey, h0, sumCounts] at *
        omega

/-- Reading a map after a Go style increment of a present key. -/
theorem lookupKey_bumpKey (m : List (String × Nat)) (key k : String) :
    lookupKey (bumpKey m key) k =
      if k = key then some ((lookupKey m key).getD 0 + 1) else lookupKey m k := by
  simp [bumpKey, lookupKey_setKey]

/-- Incrementing a present key raises the sum of the counters by one. -/
theorem sumCounts_bumpKey (m : List (String × Nat)) (key : String) (v : Nat)
    (h : lookupKey m key = some v) :
    sumCounts (bumpKey m key) = sumCounts m + 1 := by
  have h1 := sumCounts_setKey m key v (v + 1) h
  simp [bumpKey, h]
  omega

/-- A key is present in the tally built by the constructor loop exactly
when it is one of the configured options or was present in the seed map. -/
theorem lookupKey_initCounts (options : List String) (m : List (String × Nat)) (k : String) :
    lookupKey (options.foldl (fun acc op => setKey acc op 0) m) k = none ↔
      k ∉ options ∧ lookupKey m k = none := by
  induction options generalizing m with
  | nil => simp
  | cons o t ih =>
      by_cases h : k = o
      · subst h
        simp [List.foldl_cons, ih, lookupKey_setKey]
      · simp only [List.foldl_cons, ih, lookupKey_setKey, List.mem_cons, if_neg h]
        tauto

/-- All counters of the tally built by the constructor loop are zero. -/
theorem initCounts_all_zero (options : List String) (m : List (String × Nat))
    (hm : ∀ p ∈ m, p.2 = 0) :
    ∀ p ∈ options.foldl (fun acc op => setKey acc op 0) m, p.2 = 0 := by
  induction options generalizing m with
  | nil => simpa using hm
  | cons o t ih =>
      intro p hp
      refine ih (setKey m o 0) ?_ p hp
      intro q hq
      rcases mem_setKey m o 0 q hq with h | h
      · simp [h]
      · exact hm q h

/-- A tally whose counters are all zero sums to zero. -/
theorem sumCounts_eq_zero (m : List (String × Nat)) (hm : ∀ p ∈ m, p.2 = 0) :
    sumCounts m = 0 := by
  induction m with
  | nil => rfl
  | cons p t ih =>
      have hp := hm p (by simp)
      have ht := ih (fun q hq => hm q (by simp [hq]))
      simp [sumCounts] at ht ⊢
      exact ⟨hp, ht⟩

/-- The freshly constructed tally sums to zero. -/
theorem sumCounts_NewUDPServer (options : List String) :
    sumCounts (NewUDPServer options).voteCounts = 0 :=
  sumCounts_eq_zero _ (initCounts_all_zero options [] (by simp))

/-- broadcastUpdateLocked increments the sequence counter by one and
changes nothing else but the channel. -/
theorem broadcastUpdateLocked_fields (s : UDPServer) :
    (broadcastUpdateLocked s).clients = s.clients
    ∧ (broadcastUpdateLocked s).votes = s.votes
    ∧ (broadcastUpdateLocked s).voteCounts = s.voteCounts
    ∧ (broadcastUpdateLocked s).votingState = s.votingState
    ∧ (broadcastUpdateLocked s).votingDeadline = s.votingDeadline
    ∧ (broadcastUpdateLocked s).broadcastSeq = s.broadcastSeq + 1 := by
  simp only [broadcastUpdateLocked]
  split <;> simp

/-- Master case analysis of processVote: either the vote is accepted and
the state is the broadcast of the updated maps, with all four checks
known to pass, or the vote is rejected and the state is untouched. -/
theorem processVote_spec (s : UDPServer) (id option : String) (now : Nat) :
    ((processVote s id option now).1 = .accepted
      ∧ (processVote s id option now).2 = broadcastUpdateLocked
          { s with votes := setKey s.votes id option
                   voteCounts := bumpKey s.voteCounts option }
      ∧ lookupKey s.clients id ≠ none
      ∧ s.votingState = .votingActive
      ∧ ¬ s.votingDeadline < now
      ∧ lookupKey s.votes id = none
      ∧ lookupKey s.voteCounts option ≠ none)
    ∨ ((processVote s id option now).1 ≠ .accepted
      ∧ (processVote s id option now).2 = s) := by
  by_cases h1 : lookupKey s.clients id = none
  · right; simp [processVote, h1]
  · by_cases h2 : s.votingState ≠ .votingActive ∨ s.votingDeadline < now
    · right; simp [processVote, h1, h2]
    · rcases not_or.mp h2 with ⟨h2a, h2b⟩
      rw [not_not] at h2a
      by_cases h3 : lookupKey s.votes id = none
      · by_cases h4 : lookupKey s.voteCounts option = none
        · right; simp [processVote, h1, h2a, h2b, h3, h4]
        · left
          refine ⟨?_, ?_, h1, h2a, h2b, h3, h4⟩
          · simp [processVote, h1, h2a, h2b, h3, h4]
          · simp [processVote, h1, h2a, h2b, h3, h4]
      · right; simp [processVote, h1, h2a, h2b, h3]

/-- processVote never changes the voting phase. -/
theorem processVote_votingState (s : UDPServer) (id option : String) (now : Nat) :
    ((processVote s id option now).2).votingState = s.votingState := by
  rcases processVote_spec s id option now with ⟨_, h, _⟩ | ⟨_, h⟩
  · rw [h]; exact (broadcastUpdateLocked_fields _).2.2.2.1
  · rw [h]

/-- registerClient changes at most the clients map. -/
theorem registerClient_state (s : UDPServer) (id : String) (addr : Nat) :
    ((registerClient s id addr).2).votes = s.votes
    ∧ ((registerClient s id addr).2).voteCounts = s.voteCounts
    ∧ ((registerClient s id addr).2).votingState = s.votingState
    ∧ ((registerClient s id addr).2).broadcastSeq = s.broadcastSeq := by
  by_cases h : lookupKey s.clients id = none <;> simp [registerClient, h]

/-- Case analysis of StartVoting: it either fires from NOT_STARTED or is
a complete no-op. -/
theorem StartVoting_cases (s : UDPServer) (sec now : Nat) :
    (s.votingState = .votingNotStarted
      ∧ StartVoting s sec now = broadcastUpdateLocked
          { s with votingState := .votingActive, votingDeadline := now + sec })
    ∨ (s.votingState ≠ .votingNotStarted ∧ StartVoting s sec now = s) := by
  by_cases h : s.votingState = .votingNotStarted
  · exact Or.inl ⟨h, by simp [StartVoting, h]⟩
  · exact Or.inr ⟨h, by simp [StartVoting, h]⟩

/-- Case analysis of endVoting: it either fires from ACTIVE or is a
complete no-op. -/
theorem endVoting_cases (s : UDPServer) :
    (s.votingState = .votingActive
      ∧ endVoting s = broadcastUpdateLocked { s with votingState := .votingEnded })
    ∨ (s.votingState ≠ .votingActive ∧ endVoting s = s) := by
  by_cases h : s.votingState = .votingActive
  · exact Or.inl ⟨h, by simp [endVoting, h]⟩
  · exact Or.inr ⟨h, by simp [endVoting, h]⟩

/-- A property preserved by every event holds in every state reached by
a run, once it holds at the start. -/
theorem foldl_applyEvent_inv (P : UDPServer → Prop)
    (step : ∀ s e, P s → P (applyEvent s e)) :
    ∀ (es : List Event) (s : UDPServer), P s → P (es.foldl applyEvent s) := by
  intro es
  induction es with
  | nil => intro s h; exact h
  | cons e t ih => intro s h; exact ih (applyEvent s e) (step s e h)

/-- The ballot count and tally sum agree in every reachable state. -/
theorem reachable_sum_eq_length (options : List String) (es : List Event) :
    sumCounts (runEvents options es).voteCounts = (runEvents options es).votes.length := by
  refine foldl_applyEvent_inv
    (fun s => sumCounts s.voteCounts = s.votes.length) ?_ es (NewUDPServer options) ?_
  · intro s e h
    cases e with
    | register id addr =>
        have hr := registerClient_state s id addr
        simp [applyEvent, hr.1, hr.2.1, h]
    | vote id option now =>
        rcases processVote_spec s id option now with
          ⟨_, h2, _, _, _, h5, h6⟩ | ⟨_, h2⟩
        · obtain ⟨v, hv⟩ := Option.ne_none_iff_exists.mp h6
          have hb := broadcastUpdateLocked_fields
            { s with votes := setKey s.votes id option
                     voteCounts := bumpKey s.voteCounts option }
          simp only [applyEvent, h2, hb.2.1, hb.2.2.1]
          rw [sumCounts_bumpKey s.voteCounts option v hv.symm,
              setKey_of_lookup_none s.votes id option h5]
          simp [h]
        · simp [applyEvent, h2, h]
    | start sec now =>
        rcases StartVoting_cases s sec now with ⟨_, h2⟩ | ⟨_, h2⟩
        · have hb := broadcastUpdateLocked_fields
            { s with votingState := VotingState.votingActive, votingDeadline := now + sec }
          simp [applyEvent, h2, hb.2.1, hb.2.2.1, h]
        · simp [applyEvent, h2, h]
    | finish =>
        rcases endVoting_cases s with ⟨_, h2⟩ | ⟨_, h2⟩
        · have hb := broadcastUpdateLocked_fields
            { s with votingState := VotingState.votingEnded }
          simp [applyEvent, h2, hb.2.1, hb.2.2.1, h]
        · simp [applyEvent, h2, h]
    | drain => simpa [applyEvent] using h
  · show sumCounts (NewUDPServer options).voteCounts = (NewUDPServer options).votes.length
    rw [sumCounts_NewUDPServer]; rfl

/-- The key set of the tally in every reachable state is the configured
option set. -/
theorem reachable_voteCounts_keys (options : List String) (es : List Event) (k : String) :
    lookupKey (runEvents options es).voteCounts k = none ↔ k ∉ options := by
  refine foldl_applyEvent_inv
    (fun s => ∀ k0, lookupKey s.voteCounts k0 = none ↔ k0 ∉ options) ?_ es
    (NewUDPServer options) ?_ k
  · intro s e h
    cases e with
    | register id addr =>
        intro k0
        have hr := registerClient_state s id addr
        rw [applyEvent, hr.2.1]
        exact h k0
    | vote id option now =>
        intro k0
        rcases processVote_spec s id option now with
          ⟨_, h2, _, _, _, _, h6⟩ | ⟨_, h2⟩
        · have hb := broadcastUpdateLocked_fields
            { s with votes := setKey s.votes id option
                     voteCounts := bumpKey s.voteCounts option }
          rw [applyEvent, h2, hb.2.2.1]
          by_cases hk : k0 = option
          · subst hk
            have hmem : k0 ∈ options := by
              by_contra hmem
              exact h6 ((h k0).mpr hmem)
            simp [lookupKey_bumpKey, hmem]
          · rw [show lookupKey (bumpKey s.voteCounts option) k0 = lookupKey s.voteCounts k0 by
                  simp [lookupKey_bumpKey, hk]]
            exact h k0
        · rw [applyEvent, h2]; exact h k0
    | start sec now =>
        intro k0
        rcases StartVoting_cases s sec now with ⟨_, h2⟩ | ⟨_, h2⟩
        · have hb := broadcastUpdateLocked_fields
            { s with votingState := VotingState.votingActive, votingDeadline := now + sec }
          rw [applyEvent, h2, hb.2.2.1]
          exact h k0
        · rw [applyEvent, h2]; exact h k0
    | finish =>
        intro k0
        rcases endVoting_cases s with ⟨_, h2⟩ | ⟨_, h2⟩
        · have hb := broadcastUpdateLocked_fields
            { s with votingState := VotingState.votingEnded }
          rw [applyEvent, h2, hb.2.2.1]
          exact h k0
        · rw [applyEvent, h2]; exact h k0
    | drain => intro k0; simpa [applyEvent] using h k0
  · intro k0
    simpa [NewUDPServer, lookupKey] using lookupKey_initCounts options [] k0

end UDPVote

namespace ServerUdpGo

/-- Master case analysis of handleVote: the received-vote counter always
advances; the vote is either accepted, with the maps updated and a sync
or async broadcast issued, or rejected with no change beyond the counter. -/
theorem handleVote_spec (s0 : UDPServer) (clientID option : String) (now : Nat) :
    ((handleVote s0 clientID option now).1 = .accepted
      ∧ (handleVote s0 clientID option now).2 =
          (if s0.useAsyncBroadcast then
            broadcastAsync
              { s0 with votesReceived := s0.votesReceived + 1
                        votes := UDPVote.setKey s0.votes clientID option
                        voteCounts := UDPVote.bumpKey s0.voteCounts option }
          else
            broadcastSync
              { s0 with votesReceived := s0.votesReceived + 1
                        votes := UDPVote.setKey s0.votes clientID option
                        voteCounts := UDPVote.bumpKey s0.voteCounts option })
      ∧ UDPVote.lookupKey s0.clients clientID ≠ none
      ∧ s0.votingState = .votingActive
      ∧ ¬ s0.votingDeadline < now
      ∧ UDPVote.lookupKey s0.votes clientID = none
      ∧ option ∈ s0.options.list)
    ∨ ((handleVote s0 clientID option now).1 ≠ .accepted
      ∧ (handleVote s0 clientID option now).2 =
          { s0 with votesReceived := s0.votesReceived + 1 }) := by
  by_cases h1 : UDPVote.lookupKey s0.clients clientID = none
  · right; simp [handleVote, h1]
  · by_cases h2 : s0.votingState ≠ UDPVote.VotingState.votingActive ∨ s0.votingDeadline < now
    · right; simp [handleVote, h1, h2]
    · rcases not_or.mp h2 with ⟨h2a, h2b⟩
      rw [not_not] at h2a
      by_cases h3 : UDPVote.lookupKey s0.votes clientID = none
      · by_cases h4 : option ∈ s0.options.list
        · left
          refine ⟨?_, ?_, h1, h2a, h2b, h3, h4⟩
          · simp [handleVote, h1, h2a, h2b, h3, h4]
          · simp [handleVote, h1, h2a, h2b, h3, h4]
        · right; simp [handleVote, h1, h2a, h2b, h3, h4]
      · right; simp [handleVote, h1, h2a, h2b, h3]

end ServerUdpGo

/-- C6: a second Register for an identifier already in the registry
returns AlreadyRegistered and leaves the whole state, so in particular
the stored endpoint and the rest of the registry, unchanged; a Register
for a fresh identifier appends the record and succeeds, whatever the
phase. This holds for the part_005 registerClient and the server_udp.go
handleRegister alike. -/
theorem C6_register_first_writer_wins (s : UDPVote.UDPServer)
    (t : ServerUdpGo.UDPServer) (id : String) (addr : Nat) :
    (UDPVote.lookupKey s.clients id ≠ none →
      UDPVote.registerClient s id addr = (.alreadyRegistered, s))
    ∧ (UDPVote.lookupKey s.clients id = none →
      UDPVote.registerClient s id addr =
        (.ok, { s with clients := s.clients ++ [(id, addr)] }))
    ∧ (UDPVote.lookupKey t.clients id ≠ none →
      ServerUdpGo.handleRegister t id addr = (.alreadyRegistered, t))
    ∧ (UDPVote.lookupKey t.clients id = none →
      ServerUdpGo.handleRegister t id addr =
        (.ok, { t with clients := t.clients ++ [(id, addr)] })) := by
  refine ⟨?_, ?_, ?_, ?_⟩
  · intro h; simp [UDPVote.registerClient, h]
  · intro h
    simp [UDPVote.registerClient, h, UDPVote.setKey_of_lookup_none _ _ addr h]
  · intro h; simp [ServerUdpGo.handleRegister, h]
  · intro h
    simp [ServerUdpGo.handleRegister, h, UDPVote.setKey_of_lookup_none _ _ addr h]

/-- C6 witness: re-registering alice in the active sample state is
rejected with the state intact, registering the fresh bob appends the
record; likewise for bob and carol in the server_udp.go sample state. -/
theorem C6_register_first_writer_wins_witness :
    UDPVote.registerClient UDPVote.sampleActive "alice" 7 =
      (.alreadyRegistered, UDPVote.sampleActive)
    ∧ UDPVote.registerClient UDPVote.sampleActive "bob" 7 =
      (.ok, { UDPVote.sampleActive with
                clients := UDPVote.sampleActive.clients ++ [("bob", 7)] })
    ∧ ServerUdpGo.handleRegister ServerUdpGo.sampleVotedGo "bob" 9 =
      (.alreadyRegistered, ServerUdpGo.sampleVotedGo)
    ∧ ServerUdpGo.handleRegister ServerUdpGo.sampleVotedGo "carol" 9 =
      (.ok, { ServerUdpGo.sampleVotedGo with
                clients := ServerUdpGo.sampleVotedGo.clients ++ [("carol", 9)] }) :=
  ⟨(C6_register_first_writer_wins UDPVote.sampleActive ServerUdpGo.sampleVotedGo
      "alice" 7).1 (by decide),
   (C6_register_first_writer_wins UDPVote.sampleActive ServerUdpGo.sampleVotedGo
      "bob" 7).2.1 (by decide),
   (C6_register_first_writer_wins UDPVote.sampleActive ServerUdpGo.sampleVotedGo
      "bob" 9).2.2.1 (by decide),
   (C6_register_first_writer_wins UDPVote.sampleActive ServerUdpGo.sampleVotedGo
      "carol" 9).2.2.2 (by decide)⟩

/-- C7: EndVoting is a no-op in any phase other than ACTIVE, and calling
it twice in sequence yields exactly the state of calling it once: phase,
ballots, tally, sequence counter and queued snapshots are all equal, so
the second invocation emits no second snapshot event. This holds for the
part_005 endVoting and the server_udp.go endVoting alike. -/
theorem C7_endVoting_idempotent (s : UDPVote.UDPServer) (t : ServerUdpGo.UDPServer) :
    UDPVote.endVoting (UDPVote.endVoting s) = UDPVote.endVoting s
    ∧ (s.votingState ≠ .votingActive → UDPVote.endVoting s = s)
    ∧ ServerUdpGo.endVoting (ServerUdpGo.endVoting t) = ServerUdpGo.endVoting t
    ∧ (t.votingState ≠ .votingActive → ServerUdpGo.endVoting t = t) := by
  have hnoop : ∀ s1 : UDPVote.UDPServer, s1.votingState ≠ .votingActive →
      UDPVote.endVoting s1 = s1 := by
    intro s1 h
    rcases UDPVote.endVoting_cases s1 with ⟨h1, _⟩ | ⟨_, h2⟩
    · exact absurd h1 h
    · exact h2
  have hnoop2 : ∀ t1 : ServerUdpGo.UDPServer, t1.votingState ≠ .votingActive →
      ServerUdpGo.endVoting t1 = t1 := by
    intro t1 h
    simp [ServerUdpGo.endVoting, h]
  refine ⟨?_, hnoop s, ?_, hnoop2 t⟩
  · by_cases h : s.votingState = .votingActive
    · rcases UDPVote.endVoting_cases s with ⟨_, h2⟩ | ⟨hne, _⟩
      · apply hnoop
        rw [h2, (UDPVote.broadcastUpdateLocked_fields _).2.2.2.1]
        simp
      · exact absurd h hne
    · rw [hnoop s h]; exact hnoop s h
  · by_cases h : t.votingState = .votingActive
    · simp [ServerUdpGo.endVoting, h]
    · rw [hnoop2 t h]; exact hnoop2 t h

/-- C7 witness: a second EndVoting on an already ended or never started
state changes nothing, in both variants. -/
theorem C7_endVoting_idempotent_witness :
    UDPVote.sampleEnded.votingState ≠ .votingActive
    ∧ UDPVote.endVoting UDPVote.sampleEnded = UDPVote.sampleEnded
    ∧ (ServerUdpGo.NewUDPServer true ["A"]).votingState ≠ .votingActive
    ∧ ServerUdpGo.endVoting (ServerUdpGo.NewUDPServer true ["A"]) =
        ServerUdpGo.NewUDPServer true ["A"] :=
  ⟨by decide,
   (C7_endVoting_idempotent UDPVote.sampleEnded
      (ServerUdpGo.NewUDPServer true ["A"])).2.1 (by decide),
   by decide,
   (C7_endVoting_idempotent UDPVote.sampleEnded
      (ServerUdpGo.NewUDPServer true ["A"])).2.2.2 (by decide)⟩

/-- C8: whenever a vote is rejected, for any of the four error reasons,
the ballot map and the tally are exactly as before the call: no partial
update survives a rejected vote, in either server variant. -/
theorem C8_rejected_vote_no_partial_update (s : UDPVote.UDPServer)
    (t : ServerUdpGo.UDPServer) (id option : String) (now : Nat) :
    ((UDPVote.processVote s id option now).1 ≠ .accepted →
      ((UDPVote.processVote s id option now).2).votes = s.votes
      ∧ ((UDPVote.processVote s id option now).2).voteCounts = s.voteCounts)
    ∧ ((ServerUdpGo.handleVote t id option now).1 ≠ .accepted →
      ((ServerUdpGo.handleVote t id option now).2).votes = t.votes
      ∧ ((ServerUdpGo.handleVote t id option now).2).voteCounts = t.voteCounts) := by
  constructor
  · intro h
    rcases UDPVote.processVote_spec s id option now with ⟨h1, _⟩ | ⟨_, h2⟩
    · exact absurd h1 h
    · rw [h2]; exact ⟨rfl, rfl⟩
  · intro h
    rcases ServerUdpGo.handleVote_spec t id option now with ⟨h1, _⟩ | ⟨_, h2⟩
    · exact absurd h1 h
    · rw [h2]; exact ⟨rfl, rfl⟩

/-- C8 witness: a duplicate vote by alice and a vote by the unregistered
carol are rejected and leave ballots and tally untouched. -/
theorem C8_rejected_vote_no_partial_update_witness :
    (UDPVote.processVote UDPVote.sampleVoted "alice" "A" 2).1 ≠ .accepted
    ∧ ((UDPVote.processVote UDPVote.sampleVoted "alice" "A" 2).2).votes =
        UDPVote.sampleVoted.votes
    ∧ ((UDPVote.processVote UDPVote.sampleVoted "alice" "A" 2).2).voteCounts =
        UDPVote.sampleVoted.voteCounts
    ∧ (ServerUdpGo.handleVote ServerUdpGo.sampleVotedGo "carol" "A" 2).1 ≠ .accepted
    ∧ ((ServerUdpGo.handleVote ServerUdpGo.sampleVotedGo "carol" "A" 2).2).votes =
        ServerUdpGo.sampleVotedGo.votes
    ∧ ((ServerUdpGo.handleVote ServerUdpGo.sampleVotedGo "carol" "A" 2).2).voteCounts =
        ServerUdpGo.sampleVotedGo.voteCounts := by
  have h1 := (C8_rejected_vote_no_partial_update UDPVote.sampleVoted
    ServerUdpGo.sampleVotedGo "alice" "A" 2).1 (by decide)
  have h2 := (C8_rejected_vote_no_partial_update UDPVote.sampleVoted
    ServerUdpGo.sampleVotedGo "carol" "A" 2).2 (by decide)
  exact ⟨by decide, h1.1, h1.2, by decide, h2.1, h2.2⟩

/-- C2 counterexample: in the sample state the deadline is 5 and the
phase is ACTIVE, and a registered vote arriving exactly at instant 5,
that is with now equal to the deadline, is accepted rather than rejected,
because the code uses the strict wall clock test
time.Now().After(votingDeadline). -/
theorem C2_counterexample_vote_at_deadline_accepted :
    UDPVote.sampleActive.votingDeadline = 5
    ∧ UDPVote.sampleActive.votingState = .votingActive
    ∧ UDPVote.lookupKey UDPVote.sampleActive.clients "alice" ≠ none
    ∧ (UDPVote.processVote UDPVote.sampleActive "alice" "A" 5).1 = .accepted :=
  ⟨rfl, rfl, by decide, rfl⟩

/-- C2 amended: for a registered identifier, a vote whose call instant is
strictly past the deadline is rejected as VotingNotActive even when the
phase flag is still ACTIVE because the scheduled end callback has not
fired; a vote arriving exactly at the deadline instant passes the lazy
wall clock check, which is strict. -/
theorem C2_reject_strictly_after_deadline (s : UDPVote.UDPServer)
    (id option : String) (now : Nat)
    (hreg : UDPVote.lookupKey s.clients id ≠ none)
    (hlate : s.votingDeadline < now) :
    (UDPVote.processVote s id option now).1 = .votingNotActive := by
  simp [UDPVote.processVote, hreg, hlate]

/-- C2 witness: alice is registered, the deadline of the sample state is
strictly below instant 6, and her vote at instant 6 is rejected while the
phase flag is still ACTIVE. -/
theorem C2_reject_strictly_after_deadline_witness :
    UDPVote.lookupKey UDPVote.sampleActive.clients "alice" ≠ none
    ∧ UDPVote.sampleActive.votingDeadline < 6
    ∧ UDPVote.sampleActive.votingState = .votingActive
    ∧ (UDPVote.processVote UDPVote.sampleActive "alice" "A" 6).1 = .votingNotActive :=
  ⟨by decide, by decide, rfl,
   C2_reject_strictly_after_deadline UDPVote.sampleActive "alice" "A" 6
     (by decide) (by decide)⟩

/-- C3 counterexample: in the server_udp.go variant the StartVoting
transition from NOT_STARTED fires, the phase becomes ACTIVE, yet the
broadcast sequence counter is not incremented: the start announcement is
sent directly without a sequence number. -/
theorem C3_counterexample_go_start_no_increment :
    (ServerUdpGo.StartVoting (ServerUdpGo.NewUDPServer true ["A", "B"]) 5 0).votingState
      = .votingActive
    ∧ (ServerUdpGo.NewUDPServer true ["A", "B"]).votingState = .votingNotStarted
    ∧ (ServerUdpGo.StartVoting (ServerUdpGo.NewUDPServer true ["A", "B"]) 5 0).broadcastSeq
      = (ServerUdpGo.NewUDPServer true ["A", "B"]).broadcastSeq :=
  ⟨rfl, rfl, rfl⟩

/-- C3 amended, for the part_005 server: the sequence counter starts at
0, is incremented by exactly one for each accepted vote, each StartVoting
from NOT_STARTED and each EndVoting from ACTIVE, and by no other event,
for every state, so independently of whether the snapshot is enqueued or
dropped on a full channel; the start event is enqueued with seq_num 1 and
the first accepted vote with seq_num 2. In the server_udp.go variant
StartVoting and endVoting broadcast directly without touching the
counter, so there only accepted votes increment it. -/
theorem C3_seq_counter_per_event :
    (∀ options : List String, (UDPVote.NewUDPServer options).broadcastSeq = 0)
    ∧ (∀ (s : UDPVote.UDPServer) (id : String) (addr : Nat),
        ((UDPVote.registerClient s id addr).2).broadcastSeq = s.broadcastSeq)
    ∧ (∀ s : UDPVote.UDPServer,
        (UDPVote.applyEvent s .drain).broadcastSeq = s.broadcastSeq)
    ∧ (∀ (s : UDPVote.UDPServer) (id option : String) (now : Nat),
        ((UDPVote.processVote s id option now).2).broadcastSeq =
          if (UDPVote.processVote s id option now).1 = .accepted
          then s.broadcastSeq + 1 else s.broadcastSeq)
    ∧ (∀ (s : UDPVote.UDPServer) (sec now : Nat),
        (UDPVote.StartVoting s sec now).broadcastSeq =
          if s.votingState = .votingNotStarted
          then s.broadcastSeq + 1 else s.broadcastSeq)
    ∧ (∀ s : UDPVote.UDPServer,
        (UDPVote.endVoting s).broadcastSeq =
          if s.votingState = .votingActive
          then s.broadcastSeq + 1 else s.broadcastSeq)
    ∧ ((UDPVote.runEvents ["A", "B"] [.register "alice" 0, .start 5 0]).broadcastChan.map
        UDPVote.BroadcastUpdate.seqNum = [1])
    ∧ ((UDPVote.runEvents ["A", "B"]
          [.register "alice" 0, .start 5 0, .vote "alice" "A" 1]).broadcastChan.map
        UDPVote.BroadcastUpdate.seqNum = [1, 2]) := by
  refine ⟨fun _ => rfl, ?_, fun _ => rfl, ?_, ?_, ?_, rfl, rfl⟩
  · intro s id addr
    exact (UDPVote.registerClient_state s id addr).2.2.2
  · intro s id option now
    rcases UDPVote.processVote_spec s id option now with ⟨h1, h2, _⟩ | ⟨h1, h2⟩
    · rw [h2, h1, if_pos rfl]
      exact (UDPVote.broadcastUpdateLocked_fields _).2.2.2.2.2
    · rw [h2, if_neg h1]
  · intro s sec now
    rcases UDPVote.StartVoting_cases s sec now with ⟨h1, h2⟩ | ⟨h1, h2⟩
    · rw [h2, if_pos h1]
      exact (UDPVote.broadcastUpdateLocked_fields _).2.2.2.2.2
    · rw [h2, if_neg h1]
  · intro s
    rcases UDPVote.endVoting_cases s with ⟨h1, h2⟩ | ⟨h1, h2⟩
    · rw [h2, if_pos h1]
      exact (UDPVote.broadcastUpdateLocked_fields _).2.2.2.2.2
    · rw [h2, if_neg h1]

/-- C9: in the server_udp.go sample state bob is registered with endpoint
1 and has not voted, and the target map built by the broadcastWorker for
a dequeued snapshot holds only alice: the worker sends snapshots only to
registered clients that appear in the votes map, not to every endpoint in
the registry. The part_005 variant, by contrast, sends to the endpoints
of all clients. -/
theorem C9_worker_skips_nonvoters :
    UDPVote.lookupKey ServerUdpGo.sampleVotedGo.clients "bob" = some 1
    ∧ UDPVote.lookupKey ServerUdpGo.sampleVotedGo.votes "bob" = none
    ∧ ServerUdpGo.broadcastWorkerTargets ServerUdpGo.sampleVotedGo = [("alice", 0)] :=
  ⟨rfl, rfl, rfl⟩

/-- C1: the vote checks run in the fixed order registration, phase and
deadline, duplicate, option validity, each rejecting without touching the
state, and when all pass the ballot is recorded, the tally for the option
rises by exactly one and the vote is accepted (with a broadcast event);
the first failing check in this order determines the result. The
part_005 processVote and the server_udp.go handleVote follow the same
order, the latter checking validity against the configured option list. -/
theorem C1_vote_check_order (s : UDPVote.UDPServer) (t : ServerUdpGo.UDPServer)
    (id option : String) (now : Nat) :
    (UDPVote.lookupKey s.clients id = none →
      UDPVote.processVote s id option now = (.notRegistered, s))
    ∧ (UDPVote.lookupKey s.clients id ≠ none →
        (s.votingState ≠ .votingActive ∨ s.votingDeadline < now) →
      UDPVote.processVote s id option now = (.votingNotActive, s))
    ∧ (UDPVote.lookupKey s.clients id ≠ none → s.votingState = .votingActive →
        ¬ s.votingDeadline < now → UDPVote.lookupKey s.votes id ≠ none →
      UDPVote.processVote s id option now = (.duplicateVote, s))
    ∧ (UDPVote.lookupKey s.clients id ≠ none → s.votingState = .votingActive →
        ¬ s.votingDeadline < now → UDPVote.lookupKey s.votes id = none →
        UDPVote.lookupKey s.voteCounts option = none →
      UDPVote.processVote s id option now = (.invalidOption, s))
    ∧ (∀ v : Nat, UDPVote.lookupKey s.clients id ≠ none →
        s.votingState = .votingActive →
        ¬ s.votingDeadline < now → UDPVote.lookupKey s.votes id = none →
        UDPVote.lookupKey s.voteCounts option = some v →
      (UDPVote.processVote s id option now).1 = .accepted
      ∧ UDPVote.lookupKey ((UDPVote.processVote s id option now).2).votes id
          = some option
      ∧ UDPVote.lookupKey ((UDPVote.processVote s id option now).2).voteCounts option
          = some (v + 1)
      ∧ ((UDPVote.processVote s id option now).2).broadcastSeq = s.broadcastSeq + 1)
    ∧ (UDPVote.lookupKey t.clients id = none →
        (ServerUdpGo.handleVote t id option now).1 = .notRegistered)
    ∧ (UDPVote.lookupKey t.clients id ≠ none →
        (t.votingState ≠ .votingActive ∨ t.votingDeadline < now) →
        (ServerUdpGo.handleVote t id option now).1 = .votingNotActive)
    ∧ (UDPVote.lookupKey t.clients id ≠ none → t.votingState = .votingActive →
        ¬ t.votingDeadline < now → UDPVote.lookupKey t.votes id ≠ none →
        (ServerUdpGo.handleVote t id option now).1 = .duplicateVote)
    ∧ (UDPVote.lookupKey t.clients id ≠ none → t.votingState = .votingActive →
        ¬ t.votingDeadline < now → UDPVote.lookupKey t.votes id = none →
        option ∉ t.options.list →
        (ServerUdpGo.handleVote t id option now).1 = .invalidOption)
    ∧ (UDPVote.lookupKey t.clients id ≠ none → t.votingState = .votingActive →
        ¬ t.votingDeadline < now → UDPVote.lookupKey t.votes id = none →
        option ∈ t.options.list →
        (ServerUdpGo.handleVote t id option now).1 = .accepted) := by
  refine ⟨?_, ?_, ?_, ?_, ?_, ?_, ?_, ?_, ?_, ?_⟩
  · intro h1; simp [UDPVote.processVote, h1]
  · intro h1 h2; simp [UDPVote.processVote, h1, h2]
  · intro h1 h2 h3 h4; simp [UDPVote.processVote, h1, h2, h3, h4]
  · intro h1 h2 h3 h4 h5; simp [UDPVote.processVote, h1, h2, h3, h4, h5]
  · intro v h1 h2 h3 h4 h5
    have hstep : UDPVote.processVote s id option now =
        (.accepted, UDPVote.broadcastUpdateLocked
          { s with votes := UDPVote.setKey s.votes id option
                   voteCounts := UDPVote.bumpKey s.voteCounts option }) := by
      simp [UDPVote.processVote, h1, h2, h3, h4, h5]
    have hb := UDPVote.broadcastUpdateLocked_fields
      { s with votes := UDPVote.setKey s.votes id option
               voteCounts := UDPVote.bumpKey s.voteCounts option }
    refine ⟨by rw [hstep], ?_, ?_, ?_⟩
    · rw [hstep]
      show UDPVote.lookupKey (UDPVote.broadcastUpdateLocked _).votes id = some option
      rw [hb.2.1]
      simp [UDPVote.lookupKey_setKey]
    · rw [hstep]
      show UDPVote.lookupKey (UDPVote.broadcastUpdateLocked _).voteCounts option
          = some (v + 1)
      rw [hb.2.2.1]
      simp [UDPVote.lookupKey_bumpKey, h5]
    · rw [hstep]
      show (UDPVote.broadcastUpdateLocked _).broadcastSeq = s.broadcastSeq + 1
      rw [hb.2.2.2.2.2]
  · intro h1; simp [ServerUdpGo.handleVote, h1]
  · intro h1 h2; simp [ServerUdpGo.handleVote, h1, h2]
  · intro h1 h2 h3 h4; simp [ServerUdpGo.handleVote, h1, h2, h3, h4]
  · intro h1 h2 h3 h4 h5; simp [ServerUdpGo.handleVote, h1, h2, h3, h4, h5]
  · intro h1 h2 h3 h4 h5; simp [ServerUdpGo.handleVote, h1, h2, h3, h4, h5]

/-- C1 witness: each branch of the check order exercised on concrete
states of both variants: an unregistered voter, a vote before the start,
a duplicate vote, an unknown option, and a clean accepted vote. -/
theorem C1_vote_check_order_witness :
    UDPVote.processVote UDPVote.sampleActive "bob" "A" 1 =
      (.notRegistered, UDPVote.sampleActive)
    ∧ UDPVote.processVote UDPVote.sampleNotStarted "alice" "A" 1 =
      (.votingNotActive, UDPVote.sampleNotStarted)
    ∧ UDPVote.processVote UDPVote.sampleVoted "alice" "B" 2 =
      (.duplicateVote, UDPVote.sampleVoted)
    ∧ UDPVote.processVote UDPVote.sampleActive "alice" "Z" 1 =
      (.invalidOption, UDPVote.sampleActive)
    ∧ (UDPVote.processVote UDPVote.sampleActive "alice" "A" 1).1 = .accepted
    ∧ UDPVote.lookupKey
        ((UDPVote.processVote UDPVote.sampleActive "alice" "A" 1).2).votes "alice"
        = some "A"
    ∧ UDPVote.lookupKey
        ((UDPVote.processVote UDPVote.sampleActive "alice" "A" 1).2).voteCounts "A"
        = some 1
    ∧ (ServerUdpGo.handleVote ServerUdpGo.sampleVotedGo "carol" "A" 2).1 =
        .notRegistered
    ∧ (ServerUdpGo.handleVote ServerUdpGo.sampleVotedGo "alice" "B" 2).1 =
        .duplicateVote
    ∧ (ServerUdpGo.handleVote ServerUdpGo.sampleVotedGo "bob" "Z" 2).1 =
        .invalidOption
    ∧ (ServerUdpGo.handleVote ServerUdpGo.sampleVotedGo "bob" "B" 2).1 =
        .accepted := by
  have a1 := (C1_vote_check_order UDPVote.sampleActive ServerUdpGo.sampleVotedGo
    "bob" "A" 1).1 (by decide)
  have a2 := (C1_vote_check_order UDPVote.sampleNotStarted ServerUdpGo.sampleVotedGo
    "alice" "A" 1).2.1 (by decide) (by decide)
  have a3 := (C1_vote_check_order UDPVote.sampleVoted ServerUdpGo.sampleVotedGo
    "alice" "B" 2).2.2.1 (by decide) (by decide) (by decide) (by decide)
  have a4 := (C1_vote_check_order UDPVote.sampleActive ServerUdpGo.sampleVotedGo
    "alice" "Z" 1).2.2.2.1 (by decide) (by decide) (by decide) (by decide) (by decide)
  have a5 := (C1_vote_check_order UDPVote.sampleActive ServerUdpGo.sampleVotedGo
    "alice" "A" 1).2.2.2.2.1 0 (by decide) (by decide) (by decide) (by decide) (by decide)
  have b1 := (C1_vote_check_order UDPVote.sampleActive ServerUdpGo.sampleVotedGo
    "carol" "A" 2).2.2.2.2.2.1 (by decide)
  have b3 := (C1_vote_check_order UDPVote.sampleActive ServerUdpGo.sampleVotedGo
    "alice" "B" 2).2.2.2.2.2.2.2.1 (by decide) (by decide) (by decide) (by decide)
  have b4 := (C1_vote_check_order UDPVote.sampleActive ServerUdpGo.sampleVotedGo
    "bob" "Z" 2).2.2.2.2.2.2.2.2.1 (by decide) (by decide) (by decide) (by decide)
    (by decide)
  have b5 := (C1_vote_check_order UDPVote.sampleActive ServerUdpGo.sampleVotedGo
    "bob" "B" 2).2.2.2.2.2.2.2.2.2 (by decide) (by decide) (by decide) (by decide)
    (by decide)
  exact ⟨a1, a2, a3, a4, a5.1, a5.2.1, a5.2.2.1, b1, b3, b4, b5⟩

/-- C4: in every reachable state of the part_005 server the tally sums to
the number of recorded ballots; per operation, a vote adds one ballot and
one tally unit exactly when it is accepted, and registration, the phase
transitions and the broadcast worker change neither map. -/
theorem C4_tally_sum_eq_ballots (options : List String) (es : List UDPVote.Event)
    (s : UDPVote.UDPServer) (id option : String) (addr sec now : Nat) :
    UDPVote.sumCounts (UDPVote.runEvents options es).voteCounts
      = (UDPVote.runEvents options es).votes.length
    ∧ ((UDPVote.registerClient s id addr).2).votes = s.votes
    ∧ ((UDPVote.registerClient s id addr).2).voteCounts = s.voteCounts
    ∧ (UDPVote.StartVoting s sec now).votes = s.votes
    ∧ (UDPVote.StartVoting s sec now).voteCounts = s.voteCounts
    ∧ (UDPVote.endVoting s).votes = s.votes
    ∧ (UDPVote.endVoting s).voteCounts = s.voteCounts
    ∧ (UDPVote.applyEvent s .drain).votes = s.votes
    ∧ (UDPVote.applyEvent s .drain).voteCounts = s.voteCounts
    ∧ ((UDPVote.processVote s id option now).2).votes.length
        = s.votes.length +
          (if (UDPVote.processVote s id option now).1 = .accepted then 1 else 0)
    ∧ UDPVote.sumCounts ((UDPVote.processVote s id option now).2).voteCounts
        = UDPVote.sumCounts s.voteCounts +
          (if (UDPVote.processVote s id option now).1 = .accepted then 1 else 0) := by
  have hreg := UDPVote.registerClient_state s id addr
  have hstart : (UDPVote.StartVoting s sec now).votes = s.votes
      ∧ (UDPVote.StartVoting s sec now).voteCounts = s.voteCounts := by
    rcases UDPVote.StartVoting_cases s sec now with ⟨_, h2⟩ | ⟨_, h2⟩
    · have hb := UDPVote.broadcastUpdateLocked_fields
        { s with votingState := UDPVote.VotingState.votingActive
                 votingDeadline := now + sec }
      rw [h2]
      exact ⟨hb.2.1, hb.2.2.1⟩
    · rw [h2]; exact ⟨rfl, rfl⟩
  have hend : (UDPVote.endVoting s).votes = s.votes
      ∧ (UDPVote.endVoting s).voteCounts = s.voteCounts := by
    rcases UDPVote.endVoting_cases s with ⟨_, h2⟩ | ⟨_, h2⟩
    · have hb := UDPVote.broadcastUpdateLocked_fields
        { s with votingState := UDPVote.VotingState.votingEnded }
      rw [h2]
      exact ⟨hb.2.1, hb.2.2.1⟩
    · rw [h2]; exact ⟨rfl, rfl⟩
  have hvote : ((UDPVote.processVote s id option now).2).votes.length
        = s.votes.length +
          (if (UDPVote.processVote s id option now).1 = .accepted then 1 else 0)
      ∧ UDPVote.sumCounts ((UDPVote.processVote s id option now).2).voteCounts
        = UDPVote.sumCounts s.voteCounts +
          (if (UDPVote.processVote s id option now).1 = .accepted then 1 else 0) := by
    rcases UDPVote.processVote_spec s id option now with
      ⟨h1, h2, _, _, _, h5, h6⟩ | ⟨h1, h2⟩
    · obtain ⟨v, hv⟩ := Option.ne_none_iff_exists.mp h6
      have hb := UDPVote.broadcastUpdateLocked_fields
        { s with votes := UDPVote.setKey s.votes id option
                 voteCounts := UDPVote.bumpKey s.voteCounts option }
      rw [h1, if_pos rfl] at *
      constructor
      · rw [h2, hb.2.1]
        show (UDPVote.setKey s.votes id option).length = s.votes.length + 1
        rw [UDPVote.setKey_of_lookup_none s.votes id option h5]
        simp
      · rw [h2, hb.2.2.1]
        exact UDPVote.sumCounts_bumpKey s.voteCounts option v hv.symm
    · rw [if_neg h1, h2]
      exact ⟨rfl, rfl⟩
  exact ⟨UDPVote.reachable_sum_eq_length options es, hreg.1, hreg.2.1,
    hstart.1, hstart.2, hend.1, hend.2, rfl, rfl, hvote.1, hvote.2⟩

/-- C5: phase transitions are monotonic along NOT_STARTED, ACTIVE, ENDED:
no event lowers the phase, StartVoting outside NOT_STARTED and EndVoting
outside ACTIVE leave the entire state unchanged, StartVoting from
NOT_STARTED reaches ACTIVE and EndVoting from ACTIVE reaches ENDED, the
ENDED phase persists under every event, no vote is ever accepted in
ENDED, and no operation other than the two transitions changes the
phase. -/
theorem C5_phase_transitions_monotonic :
    (∀ (s : UDPVote.UDPServer) (e : UDPVote.Event),
      UDPVote.phaseRank s.votingState
        ≤ UDPVote.phaseRank (UDPVote.applyEvent s e).votingState)
    ∧ (∀ (s : UDPVote.UDPServer) (sec now : Nat),
        s.votingState ≠ .votingNotStarted → UDPVote.StartVoting s sec now = s)
    ∧ (∀ (s : UDPVote.UDPServer) (sec now : Nat),
        s.votingState = .votingNotStarted →
        (UDPVote.StartVoting s sec now).votingState = .votingActive)
    ∧ (∀ s : UDPVote.UDPServer,
        s.votingState ≠ .votingActive → UDPVote.endVoting s = s)
    ∧ (∀ s : UDPVote.UDPServer,
        s.votingState = .votingActive →
        (UDPVote.endVoting s).votingState = .votingEnded)
    ∧ (∀ (s : UDPVote.UDPServer) (e : UDPVote.Event),
        s.votingState = .votingEnded →
        (UDPVote.applyEvent s e).votingState = .votingEnded)
    ∧ (∀ (s : UDPVote.UDPServer) (id option : String) (now : Nat),
        s.votingState = .votingEnded →
        (UDPVote.processVote s id option now).1 ≠ .accepted)
    ∧ (∀ (s : UDPVote.UDPServer) (id : String) (addr : Nat),
        ((UDPVote.registerClient s id addr).2).votingState = s.votingState)
    ∧ (∀ (s : UDPVote.UDPServer) (id option : String) (now : Nat),
        ((UDPVote.processVote s id option now).2).votingState = s.votingState)
    ∧ (∀ s : UDPVote.UDPServer,
        (UDPVote.applyEvent s .drain).votingState = s.votingState) := by
  have hstartNoop : ∀ (s : UDPVote.UDPServer) (sec now : Nat),
      s.votingState ≠ .votingNotStarted → UDPVote.StartVoting s sec now = s := by
    intro s sec now h
    rcases UDPVote.StartVoting_cases s sec now with ⟨h1, _⟩ | ⟨_, h2⟩
    · exact absurd h1 h
    · exact h2
  have hstartFire : ∀ (s : UDPVote.UDPServer) (sec now : Nat),
      s.votingState = .votingNotStarted →
      (UDPVote.StartVoting s sec now).votingState = .votingActive := by
    intro s sec now h
    rcases UDPVote.StartVoting_cases s sec now with ⟨_, h2⟩ | ⟨h1, _⟩
    · rw [h2, (UDPVote.broadcastUpdateLocked_fields _).2.2.2.1]
    · exact absurd h h1
  have hendNoop : ∀ s : UDPVote.UDPServer,
      s.votingState ≠ .votingActive → UDPVote.endVoting s = s := by
    intro s h
    rcases UDPVote.endVoting_cases s with ⟨h1, _⟩ | ⟨_, h2⟩
    · exact absurd h1 h
    · exact h2
  have hendFire : ∀ s : UDPVote.UDPServer,
      s.votingState = .votingActive →
      (UDPVote.endVoting s).votingState = .votingEnded := by
    intro s h
    rcases UDPVote.endVoting_cases s with ⟨_, h2⟩ | ⟨h1, _⟩
    · rw [h2, (UDPVote.broadcastUpdateLocked_fields _).2.2.2.1]
    · exact absurd h h1
  have hmono : ∀ (s : UDPVote.UDPServer) (e : UDPVote.Event),
      UDPVote.phaseRank s.votingState
        ≤ UDPVote.phaseRank (UDPVote.applyEvent s e).votingState := by
    intro s e
    cases e with
    | register id addr =>
        rw [UDPVote.applyEvent, (UDPVote.registerClient_state s id addr).2.2.1]
    | vote id option now =>
        rw [UDPVote.applyEvent, UDPVote.processVote_votingState]
    | start sec now =>
        by_cases h : s.votingState = .votingNotStarted
        · rw [UDPVote.applyEvent, hstartFire s sec now h, h]
          simp [UDPVote.phaseRank]
        · rw [UDPVote.applyEvent, hstartNoop s sec now h]
    | finish =>
        by_cases h : s.votingState = .votingActive
        · rw [UDPVote.applyEvent, hendFire s h, h]
          simp [UDPVote.phaseRank]
        · rw [UDPVote.applyEvent, hendNoop s h]
    | drain => rw [UDPVote.applyEvent]
  have hendedAbsorb : ∀ (s : UDPVote.UDPServer) (e : UDPVote.Event),
      s.votingState = .votingEnded →
      (UDPVote.applyEvent s e).votingState = .votingEnded := by
    intro s e h
    cases e with
    | register id addr =>
        rw [UDPVote.applyEvent, (UDPVote.registerClient_state s id addr).2.2.1, h]
    | vote id option now =>
        rw [UDPVote.applyEvent, UDPVote.processVote_votingState, h]
    | start sec now =>
        rw [UDPVote.applyEvent, hstartNoop s sec now (by rw [h]; simp), h]
    | finish =>
        rw [UDPVote.applyEvent, hendNoop s (by rw [h]; simp), h]
    | drain => rw [UDPVote.applyEvent]; exact h
  have hendedReject : ∀ (s : UDPVote.UDPServer) (id option : String) (now : Nat),
      s.votingState = .votingEnded →
      (UDPVote.processVote s id option now).1 ≠ .accepted := by
    intro s id option now h
    rcases UDPVote.processVote_spec s id option now with ⟨_, _, _, h4, _⟩ | ⟨h1, _⟩
    · rw [h] at h4; exact absurd h4 (by simp)
    · exact h1
  exact ⟨hmono, hstartNoop, hstartFire, hendNoop, hendFire, hendedAbsorb,
    hendedReject, fun s id addr => (UDPVote.registerClient_state s id addr).2.2.1,
    fun s id option now => UDPVote.processVote_votingState s id option now,
    fun s => rfl⟩

/-- C5 witness: the transitions exercised on the sample states: a second
StartVoting on the active state is the identity, StartVoting fires from
the fresh state, EndVoting on the ended state is the identity and fires
from the active state, the ended phase persists under a vote event, and a
vote in the ended state is not accepted. -/
theorem C5_phase_transitions_monotonic_witness :
    UDPVote.sampleActive.votingState ≠ .votingNotStarted
    ∧ UDPVote.StartVoting UDPVote.sampleActive 9 9 = UDPVote.sampleActive
    ∧ (UDPVote.StartVoting (UDPVote.NewUDPServer ["A", "B"]) 5 0).votingState
        = .votingActive
    ∧ UDPVote.endVoting UDPVote.sampleEnded = UDPVote.sampleEnded
    ∧ (UDPVote.endVoting UDPVote.sampleActive).votingState = .votingEnded
    ∧ (UDPVote.applyEvent UDPVote.sampleEnded (.vote "alice" "A" 2)).votingState
        = .votingEnded
    ∧ (UDPVote.processVote UDPVote.sampleEnded "alice" "A" 2).1 ≠ .accepted := by
  refine ⟨by decide, ?_, ?_, ?_, ?_, ?_, ?_⟩
  · exact C5_phase_transitions_monotonic.2.1 UDPVote.sampleActive 9 9 (by decide)
  · exact C5_phase_transitions_monotonic.2.2.1 (UDPVote.NewUDPServer ["A", "B"]) 5 0
      (by decide)
  · exact C5_phase_transitions_monotonic.2.2.2.1 UDPVote.sampleEnded (by decide)
  · exact C5_phase_transitions_monotonic.2.2.2.2.1 UDPVote.sampleActive (by decide)
  · exact C5_phase_transitions_monotonic.2.2.2.2.2.1 UDPVote.sampleEnded
      (.vote "alice" "A" 2) (by decide)
  · exact C5_phase_transitions_monotonic.2.2.2.2.2.2.1 UDPVote.sampleEnded
      "alice" "A" 2 (by decide)

/-- C10: in every reachable state of the part_005 server the key set of
the tally is exactly the option set supplied to the constructor, and when
the registration, phase and duplicate checks pass, processVote returns
InvalidOption exactly for an option outside the configured set, because
it validates the option by membership in the tally key set. -/
theorem C10_tally_keys_are_options (options : List String) (es : List UDPVote.Event)
    (k id : String) (now : Nat) :
    (UDPVote.lookupKey (UDPVote.runEvents options es).voteCounts k ≠ none ↔
      k ∈ options)
    ∧ (UDPVote.lookupKey (UDPVote.runEvents options es).clients id ≠ none →
       (UDPVote.runEvents options es).votingState = .votingActive →
       ¬ (UDPVote.runEvents options es).votingDeadline < now →
       UDPVote.lookupKey (UDPVote.runEvents options es).votes id = none →
       ((UDPVote.processVote (UDPVote.runEvents options es) id k now).1 =
          .invalidOption ↔ k ∉ options)) := by
  have H := UDPVote.reachable_voteCounts_keys options es k
  constructor
  · exact (not_congr H).trans not_not
  · intro h1 h2 h3 h4
    by_cases hk : UDPVote.lookupKey (UDPVote.runEvents options es).voteCounts k = none
    · have hres : (UDPVote.processVote (UDPVote.runEvents options es) id k now).1 =
          .invalidOption := by
        simp [UDPVote.processVote, h1, h2, h3, h4, hk]
      rw [hres]
      simp [H.mp hk]
    · have hres : (UDPVote.processVote (UDPVote.runEvents options es) id k now).1 =
          .accepted := by
        simp [UDPVote.processVote, h1, h2, h3, h4, hk]
      have hmem : k ∈ options := ((not_congr H).trans not_not).mp hk
      rw [hres]
      simp [hmem]

/-- C10 witness: in the active sample state the configured options A and
B are exactly the tally keys, the unknown option Z is absent, and a vote
for Z by the registered alice yields InvalidOption while a vote for A does
not. -/
theorem C10_tally_keys_are_options_witness :
    (UDPVote.lookupKey
        (UDPVote.runEvents ["A", "B"] [.register "alice" 0, .start 5 0]).voteCounts "A"
        ≠ none ↔ "A" ∈ ["A", "B"])
    ∧ (UDPVote.lookupKey
        (UDPVote.runEvents ["A", "B"] [.register "alice" 0, .start 5 0]).voteCounts "Z"
        ≠ none ↔ "Z" ∈ ["A", "B"])
    ∧ ((UDPVote.processVote
          (UDPVote.runEvents ["A", "B"] [.register "alice" 0, .start 5 0])
          "alice" "Z" 1).1 = .invalidOption ↔ "Z" ∉ ["A", "B"])
    ∧ ((UDPVote.processVote
          (UDPVote.runEvents ["A", "B"] [.register "alice" 0, .start 5 0])
          "alice" "A" 1).1 = .invalidOption ↔ "A" ∉ ["A", "B"]) :=
  ⟨(C10_tally_keys_are_options ["A", "B"] [.register "alice" 0, .start 5 0]
      "A" "alice" 1).1,
   (C10_tally_keys_are_options ["A", "B"] [.register "alice" 0, .start 5 0]
      "Z" "alice" 1).1,
   (C10_tally_keys_are_options ["A", "B"] [.register "alice" 0, .start 5 0]
      "Z" "alice" 1).2 (by decide) (by decide) (by decide) (by decide),
   (C10_tally_keys_are_options ["A", "B"] [.register "alice" 0, .start 5 0]
      "A" "alice" 1).2 (by decide) (by decide) (by decide) (by decide)⟩
